import Mathlib

/-!
Shallow embedding of `cktap/proto.py` (the `CKTapCard` protocol client for
Coinkite TAPSIGNER/SATSCARD cards) and proofs about its behaviour.

Python dictionaries with string keys are modelled as association lists,
Python run-time values as the inductive `Value`, Python exceptions as the
inductive `PyErr`, and the mutable `CKTapCard` object as the structure
`CardState` threaded explicitly.  Methods become functions in a small
state-and-exception monad `M`; external collaborators (the transport and
the crypto helpers living outside `src/cktap/proto.py`) are fields of an
environment `Env` the monad reads from.
-/

/-- A Python run-time value as it appears in command argument/response maps:
`None`, booleans, integers, strings, byte strings (as lists of byte values)
and lists/tuples. -/
inductive Value where
  | pynone : Value
  | bool : Bool → Value
  | int : Int → Value
  | str : String → Value
  | bytes : List Nat → Value
  | list : List Value → Value
deriving Repr

namespace Value

/-- Decidable equality for `Value` (structural, written by hand because of the
nested `List Value`). -/
def beq : Value → Value → Bool
  | .pynone, .pynone => true
  | .bool a, .bool b => a == b
  | .int a, .int b => a == b
  | .str a, .str b => a == b
  | .bytes a, .bytes b => a == b
  | .list a, .list b => beqList a b
  | _, _ => false
where beqList : List Value → List Value → Bool
  | [], [] => true
  | x :: xs, y :: ys => beq x y && beqList xs ys
  | _, _ => false

instance : BEq Value := ⟨beq⟩

mutual

theorem beq_refl : (v : Value) → beq v v = true
  | .pynone => rfl
  | .bool _ => by simp [beq]
  | .int _ => by simp [beq]
  | .str _ => by simp [beq]
  | .bytes _ => by simp [beq]
  | .list l => beqList_refl l

theorem beqList_refl : (l : List Value) → beq.beqList l l = true
  | [] => rfl
  | x :: xs => by
      simp only [beq.beqList, Bool.and_eq_true]
      exact ⟨beq_refl x, beqList_refl xs⟩

end

mutual

theorem eq_of_beq : (a b : Value) → beq a b = true → a = b
  | .pynone, .pynone, _ => rfl
  | .bool _, .bool _, h => by simp [beq] at h; simp [h]
  | .int _, .int _, h => by simp [beq] at h; simp [h]
  | .str _, .str _, h => by simp [beq] at h; simp [h]
  | .bytes _, .bytes _, h => by simp [beq] at h; simp [h]
  | .list a, .list b, h => congrArg Value.list (eqList_of_beqList a b h)

theorem eqList_of_beqList : (a b : List Value) → beq.beqList a b = true → a = b
  | [], [], _ => rfl
  | x :: xs, y :: ys, h => by
      simp only [beq.beqList, Bool.and_eq_true] at h
      exact congrArg₂ List.cons (eq_of_beq x y h.1) (eqList_of_beqList xs ys h.2)

end

instance : DecidableEq Value := fun a b =>
  if h : beq a b = true then .isTrue (eq_of_beq a b h)
  else .isFalse (fun he => h (he ▸ beq_refl a))

/-- Python truthiness: `None`, `False`, `0`, and empty containers are falsy. -/
def truthy : Value → Bool
  | .pynone => false
  | .bool b => b
  | .int n => n != 0
  | .str s => s ≠ ""
  | .bytes bs => bs ≠ []
  | .list vs => vs ≠ []

/-- Python `==` between values: numeric types compare across `bool`/`int`
(`True == 1`), containers compare element-wise, and values of unrelated types
compare unequal (never raising). -/
def pyEq : Value → Value → Bool
  | .pynone, .pynone => true
  | .bool a, .bool b => a == b
  | .bool a, .int b => (if a then (1 : Int) else 0) == b
  | .int a, .bool b => a == (if b then (1 : Int) else 0)
  | .int a, .int b => a == b
  | .str a, .str b => a == b
  | .bytes a, .bytes b => a == b
  | .list a, .list b => pyEqList a b
  | _, _ => false
where pyEqList : List Value → List Value → Bool
  | [], [] => true
  | x :: xs, y :: ys => pyEq x y && pyEqList xs ys
  | _, _ => false

/-- Python `len(v)`: defined on strings, byte strings and lists; a
`TypeError` on other values (reported here as `none`). -/
def pyLen : Value → Option Nat
  | .str s => some s.length
  | .bytes bs => some bs.length
  | .list vs => some vs.length
  | _ => none

mutual

/-- Python `str(v)` as used in f-string interpolation of error messages. -/
def fmt : Value → String
  | .pynone => "None"
  | .bool b => if b then "True" else "False"
  | .int n => toString n
  | .str s => s
  | .bytes bs => "b" ++ toString bs
  | .list vs => toString (fmtList vs)

/-- `fmt` mapped over the elements of a list value. -/
def fmtList : List Value → List String
  | [] => []
  | v :: rest => fmt v :: fmtList rest

end

end Value

/-- A Python `dict` with string keys, as an association list in insertion
order; lookups return the value of the first matching key. -/
abbrev Dict := List (String × Value)

namespace Dict

/-- `d.get(k)` / `k in d` support: first binding of `k`, if any. -/
def dget (d : Dict) (k : String) : Option Value :=
  match d with
  | [] => none
  | (k', v) :: rest => if k' = k then some v else dget rest k

/-- Python `k in d`. -/
def dmem (d : Dict) (k : String) : Bool := (d.dget k).isSome

/-- Python `d[k] = v`: replace the value of an existing key in place, or
append a new binding. -/
def dinsert (d : Dict) (k : String) (v : Value) : Dict :=
  match d with
  | [] => [(k, v)]
  | (k', v') :: rest => if k' = k then (k', v) :: rest else (k', v') :: dinsert rest k v

/-- Python `d.update(other)`: insert each binding of `other` in order. -/
def dupdate (d other : Dict) : Dict :=
  match other with
  | [] => d
  | (k, v) :: rest => dupdate (d.dinsert k v) rest

theorem dget_dinsert_ne (d : Dict) (k k' : String) (v : Value) (h : k' ≠ k) :
    (d.dinsert k v).dget k' = d.dget k' := by
  induction d with
  | nil => simp [dinsert, dget, Ne.symm h]
  | cons p rest ih =>
      obtain ⟨k0, v0⟩ := p
      by_cases hk : k0 = k
      · simp [dinsert, dget, hk, Ne.symm h]
      · by_cases hk' : k0 = k'
        · simp [dinsert, dget, hk, hk', h]
        · simp [dinsert, dget, hk, hk', ih]

theorem dget_dinsert_self (d : Dict) (k : String) (v : Value) :
    (d.dinsert k v).dget k = some v := by
  induction d with
  | nil => simp [dinsert, dget]
  | cons p rest ih =>
      obtain ⟨k0, v0⟩ := p
      by_cases hk : k0 = k
      · simp [dinsert, hk, dget]
      · simp [dinsert, hk, dget, ih]

end Dict

/-- The Python exceptions `proto.py` can raise. `cardRuntimeError` carries
the command name, the numeric code value and the message value of
`CardRuntimeError(f'\x7bcode\x7d on \x7bcmd\x7d: \x7bmsg\x7d', code, msg)`. -/
inductive PyErr where
  | cardRuntimeError (cmd : String) (code : Value) (msg : Value)
  | runtimeError (msg : String)
  | valueError (msg : String)
  | assertionError (msg : String)
  | typeError (msg : String)
  | keyError (k : String)
  | attributeError (name : String)
deriving Repr, DecidableEq

/-- The mutable attributes of a `CKTapCard` instance.  `none` models an
attribute that has not been assigned yet (reading it raises
`AttributeError` in Python). -/
structure CardState where
  card_nonce : Option Value := none
  card_pubkey : Option Value := none
  card_ident : Option String := none
  applet_version : Option Value := none
  birth_height : Option Value := none
  is_testnet : Option Value := none
  auth_delay : Option Value := none
  is_tapsigner : Option Value := none
  active_slot : Option Value := none
  num_slots : Option Value := none
  certs_checked : Option Bool := none
deriving Repr, DecidableEq

/-- One lowercase hexadecimal digit. -/
def hexDigit (n : Nat) : String :=
  if n < 10 then toString n
  else if n = 10 then "a" else if n = 11 then "b" else if n = 12 then "c"
  else if n = 13 then "d" else if n = 14 then "e" else "f"

/-- Python `"0x%04x" % n` for a 16-bit status word. -/
def hex04 (n : Nat) : String :=
  "0x" ++ hexDigit (n / 4096 % 16) ++ hexDigit (n / 256 % 16)
       ++ hexDigit (n / 16 % 16) ++ hexDigit (n % 16)

/-- Modelled from the spec: `SW_OKAY` (from `constants.py`, not under `src/`)
is the unique success status word of the transport contract. -/
def SW_OKAY : Nat := 0x9000

/-- Modelled from the spec: `xor_bytes` (from `utils.py`, not under `src/`)
is the byte-wise XOR of two equal-length byte strings; calling it on `None`
or another non-bytes value raises a `TypeError`. -/
def xor_bytes (a b : Value) : Except PyErr Value :=
  match a, b with
  | .bytes xs, .bytes ys =>
      if xs.length = ys.length then .ok (.bytes (List.zipWith (fun x y => x ^^^ y) xs ys))
      else .error (.valueError "xor_bytes: length mismatch")
  | _, _ => .error (.typeError "xor_bytes: arguments must be bytes")

/-- Modelled from the spec: `force_bytes` (from `utils.py`, not under `src/`)
converts a text secret code to bytes and passes byte strings through. -/
def force_bytes (v : Value) : Except PyErr Value :=
  match v with
  | .bytes bs => .ok (.bytes bs)
  | .str s => .ok (.bytes (s.toList.map Char.toNat))
  | _ => .error (.typeError "force_bytes: expected str or bytes")

/-- Python `v[0:n]` (slicing, as applied to the session key in `send_auth`);
slicing `None` raises a `TypeError`. -/
def pySlice0 (v : Value) (n : Nat) : Except PyErr Value :=
  match v with
  | .bytes bs => .ok (.bytes (bs.take n))
  | .str s => .ok (.str (String.mk (s.toList.take n)))
  | .list vs => .ok (.list (vs.take n))
  | _ => .error (.typeError "object is not subscriptable")

/-- Python `v[0]` (indexing, as applied to `st['slots'][0]` in `address`). -/
def pyIndex0 (v : Value) : Except PyErr Value :=
  match v with
  | .list (x :: _) => .ok x
  | .bytes (b :: _) => .ok (.int b)
  | .list [] => .error (.valueError "index out of range")
  | .bytes [] => .error (.valueError "index out of range")
  | _ => .error (.typeError "object is not subscriptable")

/-- The external collaborators of `proto.py`: the transport and the crypto
helpers from `utils.py`/`compat.py`, which are not under `src/`.  They are
modelled as unconstrained deterministic functions so every theorem below
quantifies over their behaviour; fallible verifiers return `Except`. -/
structure Env where
  /-- `self.tr.send(cmd, **args)`: status word and response map. -/
  tr : String → Dict → Nat × Dict
  /-- `pick_nonce()`: the stream of nonces drawn, indexed by draw order. -/
  nonces : Nat → Value
  /-- `card_pubkey_to_ident(pubkey)`: deterministic identity hash. -/
  card_pubkey_to_ident : Value → String
  /-- `calc_xcvc(cmd, card_nonce, card_pubkey, cvc)` after its secret-code
  length check: session key and auth argument bundle. -/
  calc_xcvc_raw : String → Value → Value → Value → Value × Dict
  /-- `recover_address(status_resp, read_resp, nonce)`: `(pubkey, addr)`. -/
  recover_address : Dict → Dict → Value → Except PyErr (Value × String)
  /-- `verify_master_pubkey(pub, sig, chain_code, my_nonce, card_nonce)`. -/
  verify_master_pubkey : Value → Value → Value → Value → Value → Except PyErr Value
  /-- `verify_derive_address(chain_code, master_pub, testnet)`:
  `(derived_addr, ...)`. -/
  verify_derive_address : Value → Value → Value → Except PyErr (String × Value)
  /-- `verify_certs(status_resp, check_resp, certs_resp, nonce)`. -/
  verify_certs : Dict → Dict → Dict → Value → Except PyErr Value
  /-- `render_address(privkey, testnet)`. -/
  render_address : Value → Value → String

/-- Modelled from the spec: the Session Authenticator accepts a secret code
of 6–32 arbitrary bytes; `calc_xcvc` (from `utils.py`, not under `src/`)
rejects a secret code whose length is outside that range before anything is
sent, and otherwise derives the session key and auth arguments. -/
def Env.calc_xcvc (env : Env) (cmd : String) (card_nonce card_pubkey cvc : Value) :
    Except PyErr (Value × Dict) :=
  match cvc.pyLen with
  | none => .error (.typeError "calc_xcvc: cvc has no length")
  | some n =>
      if 6 ≤ n ∧ n ≤ 32 then .ok (env.calc_xcvc_raw cmd card_nonce card_pubkey cvc)
      else .error (.valueError "calc_xcvc: CVC must be 6 to 32 characters")

/-- The run state threaded through a session: the card object's attributes,
the number of nonces drawn so far, and the trace of `(cmd, args)` pairs
handed to the transport, in order. -/
structure RS where
  card : CardState
  nidx : Nat := 0
  sent : List (String × Dict) := []
deriving Repr

/-- The session monad: state and exceptions, where an exception preserves
the state mutated so far (as Python exceptions do). -/
def M (α : Type) : Type := Env → RS → RS × Except PyErr α

namespace M

/-- Return a value without touching the state. -/
def pure (a : α) : M α := fun _ rs => (rs, .ok a)

/-- Sequence two computations; an exception in the first short-circuits. -/
def bind (x : M α) (f : α → M β) : M β := fun env rs =>
  match x env rs with
  | (rs1, .ok a) => f a env rs1
  | (rs1, .error e) => (rs1, .error e)

/-- Raise a Python exception. -/
def raise (e : PyErr) : M α := fun _ rs => (rs, .error e)

/-- Lift an `Except` computation (no state change). -/
def lift (x : Except PyErr α) : M α := fun _ rs => (rs, x)

/-- Read the card object. -/
def getCard : M CardState := fun _ rs => (rs, .ok rs.card)

/-- Mutate the card object. -/
def modCard (f : CardState → CardState) : M Unit :=
  fun _ rs => ({ rs with card := f rs.card }, .ok ())

/-- Read an attribute of the card object; `AttributeError` when unset. -/
def attr (name : String) (f : CardState → Option Value) : M Value :=
  fun _ rs =>
    match f rs.card with
    | some v => (rs, .ok v)
    | none => (rs, .error (.attributeError name))

/-- Python `d[k]` on a response map: `KeyError` when absent. -/
def subscript (d : Dict) (k : String) : M Value :=
  fun _ rs =>
    match d.dget k with
    | some v => (rs, .ok v)
    | none => (rs, .error (.keyError k))

/-- `pick_nonce()`: draw the next nonce from the environment's stream. -/
def pick_nonce : M Value :=
  fun env rs => ({ rs with nidx := rs.nidx + 1 }, .ok (env.nonces rs.nidx))

/-- `self.tr.send(cmd, **args)`: ask the transport and record the command
in the trace. -/
def trSend (cmd : String) (args : Dict) : M (Nat × Dict) :=
  fun env rs => ({ rs with sent := rs.sent ++ [(cmd, args)] }, .ok (env.tr cmd args))

end M

/-- Lines 44–48 of `CKTapCard.send`: on a non-success status word,
synthesize an `error` description when absent and attach the raw status
word to the response map. -/
def send_annotate (sw : Nat) (resp0 : Dict) : Dict :=
  if sw ≠ SW_OKAY then
    (if resp0.dmem "error" then resp0
     else resp0.dinsert "error" (.str ("Got error SW value: " ++ hex04 sw))).dinsert
      "stat_word" (.int sw)
  else resp0

/-- Lines 51–55 of `CKTapCard.send`: mirror an updated `card_nonce` from
the response into the card state. -/
def send_track_nonce (resp1 : Dict) (c : CardState) : CardState :=
  match resp1.dget "card_nonce" with
  | some v => { c with card_nonce := some v }
  | none => c

/-- The pure core of `CKTapCard.send` (proto.py lines 44–62), applied to the
status word and response the transport returned: annotate a bad status word,
track the nonce, and either raise a `CardRuntimeError` (code defaulting to
500) or return the response map. -/
def send_core (cmd : String) (raise_on_error : Bool) (sw : Nat) (resp0 : Dict)
    (c : CardState) : CardState × Except PyErr Dict :=
  if raise_on_error && (send_annotate sw resp0).dmem "error" then
    (send_track_nonce (send_annotate sw resp0) c,
     .error (.cardRuntimeError cmd (((send_annotate sw resp0).dget "code").getD (.int 500))
              (((send_annotate sw resp0).dget "error").getD .pynone)))
  else (send_track_nonce (send_annotate sw resp0) c, .ok (send_annotate sw resp0))

/-- `CKTapCard.send`: one transport round trip followed by `send_core`. -/
def send (cmd : String) (raise_on_error : Bool) (args : Dict) : M Dict :=
  M.bind (M.trSend cmd args) fun p =>
  fun _ rs =>
    let (c1, r) := send_core cmd raise_on_error p.1 p.2 rs.card
    ({ rs with card := c1 }, r)

/-- `CKTapCard.first_look` (proto.py lines 64–82): send an unauthenticated
`status` command, fail on protocol-version mismatch, populate the identity
attributes, and assert the nonce was captured.  (The dead `'error' not in
st` assertion's message elides Python's `repr(st)`.) -/
def first_look : M Unit :=
  M.bind (send "status" true []) fun st =>
  if st.dmem "error" then M.raise (.assertionError "Early failure") else
  M.bind (M.subscript st "proto") fun proto =>
  if ¬ (proto.pyEq (.int 1)) then M.raise (.assertionError "Unknown card protocol version") else
  M.bind (M.subscript st "pubkey") fun pubkey =>
  M.bind (M.modCard fun c => { c with card_pubkey := some pubkey }) fun _ =>
  M.bind (fun env rs => (rs, .ok (env.card_pubkey_to_ident pubkey))) fun ident =>
  M.bind (M.modCard fun c => { c with card_ident := some ident }) fun _ =>
  M.bind (M.subscript st "ver") fun ver =>
  M.bind (M.modCard fun c => { c with applet_version := some ver }) fun _ =>
  M.bind (M.modCard fun c => { c with birth_height := some ((st.dget "birth").getD .pynone) }) fun _ =>
  M.bind (M.modCard fun c => { c with is_testnet := some ((st.dget "testnet").getD (.bool false)) }) fun _ =>
  M.bind (M.modCard fun c => { c with auth_delay := some ((st.dget "auth_delay").getD (.int 0)) }) fun _ =>
  M.bind (M.modCard fun c => { c with is_tapsigner := some ((st.dget "tapsigner").getD (.bool false)) }) fun _ =>
  match (st.dget "slots").getD (.list [.int 0, .int 1]) with
  | .list [a, b] =>
      M.bind (M.modCard fun c => { c with active_slot := some a, num_slots := some b }) fun _ =>
      M.bind M.getCard fun c =>
      match c.card_nonce with
      | none => M.raise (.attributeError "card_nonce")
      | some nv =>
          if ¬ nv.truthy then M.raise (.assertionError "card_nonce") else
          M.modCard fun c => { c with certs_checked := some false }
  | _ => M.raise (.valueError "cannot unpack slots")

/-- The masking step of `CKTapCard.send_auth` (proto.py lines 96–101):
`sign` XORs its `digest` argument with the full session key, `change` XORs
its `data` argument with the session key truncated to `len(data)`; every
other command's arguments pass through unchanged. -/
def send_auth_mask (cmd : String) (session_key : Value) (args : Dict) :
    Except PyErr Dict :=
  if cmd = "sign" then
    match args.dget "digest" with
    | none => .error (.keyError "digest")
    | some d => (xor_bytes d session_key).map fun d' => args.dinsert "digest" d'
  else if cmd = "change" then
    match args.dget "data" with
    | none => .error (.keyError "data")
    | some d =>
        match d.pyLen with
        | none => .error (.typeError "object has no length")
        | some n =>
            (pySlice0 session_key n).bind fun skx =>
            (xor_bytes d skx).map fun d' => args.dinsert "data" d'
  else .ok args

/-- The pure part of `CKTapCard.send_auth` before transmission (proto.py
lines 90–101): with a truthy CVC, derive the session key and auth arguments
from the current nonce and card public key and merge them in; then apply
the masking step.  With a falsy CVC the session key is `None`. -/
def send_auth_prep (env : Env) (cmd : String) (cvc : Value) (args : Dict)
    (card_nonce card_pubkey : Option Value) : Except PyErr (Value × Dict) :=
  if cvc.truthy then
    match card_nonce with
    | none => .error (.attributeError "card_nonce")
    | some cn =>
        match card_pubkey with
        | none => .error (.attributeError "card_pubkey")
        | some pk =>
            (env.calc_xcvc cmd cn pk cvc).bind fun p =>
            (send_auth_mask cmd p.1 (args.dupdate p.2)).map fun fargs => (p.1, fargs)
  else
    (send_auth_mask cmd .pynone args).map fun fargs => (.pynone, fargs)

/-- `CKTapCard.send_auth` (proto.py lines 84–103): prepare the session key
and final arguments, transmit, and return `(session_key, response)`. -/
def send_auth (cmd : String) (cvc : Value) (args : Dict) : M (Value × Dict) :=
  fun env rs =>
    match send_auth_prep env cmd cvc args rs.card.card_nonce rs.card.card_pubkey with
    | .error e => (rs, .error e)
    | .ok (sk, fargs) =>
        match send cmd true fargs env rs with
        | (rs1, .ok resp) => (rs1, .ok (sk, resp))
        | (rs1, .error e) => (rs1, .error e)

/-- `CKTapCard.certificate_check` (proto.py lines 210–224): fetch status,
the certificate chain and a nonce-bound `check` signature, run the external
chain verification, and only then record the sticky verified flag. -/
def certificate_check : M Value :=
  M.bind (send "status" true []) fun st =>
  M.bind (send "certs" true []) fun certs =>
  M.bind M.pick_nonce fun n =>
  M.bind (send "check" true [("nonce", n)]) fun check =>
  M.bind (fun env rs => (rs, env.verify_certs st check certs n)) fun rv =>
  M.bind (M.modCard fun c => { c with certs_checked := some true }) fun _ =>
  M.pure rv

/-- The dynamically-typed return value of `CKTapCard.address`: Python
`None`, the raw `rr['addr']` value from the `dump` branch, a verified
address string, or a `(pubkey, addr)` pair. -/
inductive AddrResult where
  | pynone : AddrResult
  | value : Value → AddrResult
  | addr : String → AddrResult
  | pubkeyAddr : Value → String → AddrResult
deriving Repr, DecidableEq

/-- The `AddrResult` as the Python value `address` returned (a tuple is
modelled as a list value). -/
def AddrResult.toValue : AddrResult → Value
  | .pynone => .pynone
  | .value v => v
  | .addr a => .str a
  | .pubkeyAddr p a => .list [p, .str a]

/-- The body of `CKTapCard.address` after the certificate-check gate
(proto.py lines 119–158): status, current-slot resolution, the `dump`
shortcut for other slots, the nonce-bound `read` recovery, and (unless
`faster`) the independent `derive` re-derivation with its equality check. -/
def address_body (faster incl_pubkey : Bool) (slot : Value) : M AddrResult :=
  M.bind (send "status" true []) fun st =>
  M.bind (M.subscript st "slots") fun slots =>
  M.bind (M.lift (pyIndex0 slots)) fun cur_slot =>
  let slot1 := if slot = .pynone then cur_slot else slot
  if ¬ st.dmem "addr" ∧ cur_slot.pyEq slot1 then M.pure .pynone else
  if ¬ slot1.pyEq cur_slot then
    M.bind (send "dump" true [("slot", slot1)]) fun rr =>
    if incl_pubkey then M.raise (.assertionError "can only get pubkey on current slot") else
    M.bind (M.subscript rr "addr") fun v => M.pure (.value v)
  else
  M.bind M.pick_nonce fun n =>
  M.bind (send "read" true [("nonce", n)]) fun rr =>
  M.bind (fun env rs => (rs, env.recover_address st rr n)) fun pa =>
  M.bind (if ¬ faster then
      M.bind M.pick_nonce fun my_nonce =>
      M.bind (M.attr "card_nonce" CardState.card_nonce) fun card_nonce =>
      M.bind (send "derive" true [("nonce", my_nonce)]) fun rr2 =>
      M.bind (M.subscript rr2 "master_pubkey") fun mp =>
      M.bind (M.subscript rr2 "sig") fun sig =>
      M.bind (M.subscript rr2 "chain_code") fun chain_code =>
      M.bind (fun env rs => (rs, env.verify_master_pubkey mp sig chain_code my_nonce card_nonce))
        fun master_pub =>
      M.bind (M.attr "is_testnet" CardState.is_testnet) fun tn =>
      M.bind (fun env rs => (rs, env.verify_derive_address chain_code master_pub tn)) fun da =>
      if da.1 ≠ pa.2 then M.raise (.valueError "card did not derive address as expected")
      else M.pure ()
    else M.pure ()) fun _ =>
  if incl_pubkey then M.pure (.pubkeyAddr pa.1 pa.2) else M.pure (.addr pa.2)

/-- `CKTapCard.address` (proto.py lines 109–158): SATSCARD-only payment
address fetch.  Runs `certificate_check` when the sticky flag is unset and
`faster` is off, then `address_body`. -/
def address (faster incl_pubkey : Bool) (slot : Value) : M AddrResult :=
  M.bind (M.attr "is_tapsigner" CardState.is_tapsigner) fun tap =>
  if tap.truthy then M.raise (.assertionError "not self.is_tapsigner") else
  M.bind (fun _ rs =>
    match rs.card.certs_checked with
    | some b => (rs, .ok b)
    | none => (rs, .error (.attributeError "_certs_checked"))) fun cc =>
  M.bind (if ¬ cc ∧ ¬ faster then M.bind certificate_check fun _ => M.pure () else M.pure ())
    fun _ =>
  address_body faster incl_pubkey slot

/-- `CKTapCard.change_cvc` (proto.py lines 205–208): assert the new secret
code is 6–32 long, then send the authenticated `change` command with the
new code as its (to-be-masked) `data` argument. -/
def change_cvc (old_cvc new_cvc : Value) : M Unit :=
  match new_cvc.pyLen with
  | none => M.raise (.typeError "object has no length")
  | some n =>
      if ¬ (6 ≤ n ∧ n ≤ 32) then M.raise (.assertionError "6 <= len(new_cvc) <= 32") else
      M.bind (M.lift (force_bytes new_cvc)) fun nb =>
      M.bind (send_auth "change" old_cvc [("data", nb)]) fun _ =>
      M.pure ()

/-- `CKTapCard.unseal_slot` (proto.py lines 230–251): SATSCARD-only.  Dump
the active slot unauthenticated; refuse (distinctly) an already-unsealed or
never-used slot; otherwise send the authenticated `unseal` and return the
response's masked private key XORed with the session key, with the slot. -/
def unseal_slot (cvc : Value) : M (Value × Value) :=
  M.bind (M.attr "is_tapsigner" CardState.is_tapsigner) fun tap =>
  if tap.truthy then M.raise (.assertionError "not self.is_tapsigner") else
  M.bind (M.attr "active_slot" CardState.active_slot) fun target =>
  M.bind (send "dump" true [("slot", target)]) fun resp =>
  if ((resp.dget "sealed").getD .pynone).pyEq (.bool false) then
    M.raise (.runtimeError ("Slot " ++ target.fmt ++ " has already been unsealed."))
  else if ¬ ((resp.dget "sealed").getD .pynone).pyEq (.bool true) then
    M.raise (.runtimeError ("Slot " ++ target.fmt ++ " has not been used yet."))
  else
  M.bind (send_auth "unseal" cvc [("slot", target)]) fun p =>
  M.bind (M.subscript p.2 "privkey") fun pkv =>
  M.bind (M.lift (xor_bytes p.1 pkv)) fun pk =>
  M.pure (pk, target)

/-- The branch cascade of `CKTapCard.get_slot_usage` (proto.py lines
280–294): compute the slot's `(addr, status)` from the dump response
`here`, in order — `sealed == True` (fetching the fast-path address when
the slot is the active one), then `sealed == False` or a `privkey` field
(rendering the unmasked key's address when present), then `used == False`,
and otherwise the unreachable-state `ValueError`. -/
def get_slot_status (session_key slot : Value) (here : Dict) : M (Value × String) :=
  if ((here.dget "sealed").getD .pynone).pyEq (.bool true) then
    M.bind (M.attr "active_slot" CardState.active_slot) fun act =>
    if slot.pyEq act then
      M.bind (address true false .pynone) fun ar => M.pure (ar.toValue, "sealed")
    else M.pure ((here.dget "addr").getD .pynone, "sealed")
  else if ((here.dget "sealed").getD .pynone).pyEq (.bool false) || here.dmem "privkey" then
    if here.dmem "privkey" then
      M.bind (M.subscript here "privkey") fun hp =>
      M.bind (M.lift (xor_bytes session_key hp)) fun pk =>
      M.bind (M.attr "is_testnet" CardState.is_testnet) fun tn =>
      M.bind (fun env rs => (rs, .ok (env.render_address pk tn))) fun ra =>
      M.pure (Value.str ra, "UNSEALED")
    else M.pure ((here.dget "addr").getD .pynone, "UNSEALED")
  else if ((here.dget "used").getD .pynone).pyEq (.bool false) then
    M.pure ((here.dget "addr").getD .pynone, "unused")
  else M.raise (.valueError "unclassifiable slot dump")

/-- `CKTapCard.get_slot_usage` (proto.py lines 273–298): SATSCARD-only.
Authenticated-or-not `dump`, classify via `get_slot_status`, and return
`(addr, status, here)` with the `addr or here.get('addr')` fallback (the
`ValueError`'s message elides Python's `repr(here)`). -/
def get_slot_usage (slot : Value) (cvc : Value) : M (Value × String × Dict) :=
  M.bind (M.attr "is_tapsigner" CardState.is_tapsigner) fun tap =>
  if tap.truthy then M.raise (.assertionError "not self.is_tapsigner") else
  M.bind (send_auth "dump" cvc [("slot", slot)]) fun p =>
  M.bind (get_slot_status p.1 slot p.2) fun pr =>
  M.pure (if pr.1.truthy then pr.1 else (p.2.dget "addr").getD .pynone, pr.2, p.2)



/-! ## Properties of `send` -/

theorem send_core_fst (cmd : String) (ro : Bool) (sw : Nat) (resp : Dict) (c : CardState) :
    (send_core cmd ro sw resp c).1 = send_track_nonce (send_annotate sw resp) c := by
  unfold send_core
  split <;> rfl

theorem dget_annotate_ne (sw : Nat) (resp : Dict) (k : String)
    (hk1 : k ≠ "stat_word") (hk2 : k ≠ "error") :
    (send_annotate sw resp).dget k = resp.dget k := by
  unfold send_annotate
  by_cases h : sw ≠ SW_OKAY
  · rw [if_pos h, Dict.dget_dinsert_ne _ "stat_word" k _ hk1]
    by_cases he : resp.dmem "error"
    · rw [if_pos he]
    · rw [if_neg he, Dict.dget_dinsert_ne _ "error" k _ hk2]
  · rw [if_neg h]

theorem Dict.dmem_dinsert_self (d : Dict) (k : String) (v : Value) :
    (d.dinsert k v).dmem k = true := by
  simp [Dict.dmem, Dict.dget_dinsert_self]

theorem send_run (cmd : String) (ro : Bool) (args : Dict) (env : Env) (rs : RS) :
    send cmd ro args env rs =
      ({ rs with sent := rs.sent ++ [(cmd, args)],
                 card := (send_core cmd ro (env.tr cmd args).1 (env.tr cmd args).2 rs.card).1 },
       (send_core cmd ro (env.tr cmd args).1 (env.tr cmd args).2 rs.card).2) :=
  rfl

/-- A fixed environment for the concrete witnesses below; individual
witnesses override the transport. -/
def envBase : Env where
  tr := fun _ _ => (SW_OKAY, [])
  nonces := fun _ => .bytes [1, 2, 3]
  card_pubkey_to_ident := fun _ => "IDENT"
  calc_xcvc_raw := fun _ _ _ _ =>
    (.bytes (List.replicate 32 7), [("epubkey", .bytes [2]), ("xcvc", .bytes [3])])
  recover_address := fun _ _ _ => .ok (.bytes [2, 3], "addr1")
  verify_master_pubkey := fun mp _ _ _ _ => .ok mp
  verify_derive_address := fun _ _ _ => .ok ("addr1", .pynone)
  verify_certs := fun _ _ _ _ => .ok .pynone
  render_address := fun _ _ => "raddr"

/-- C1: for every call to `send`, if the response map contains a
`card_nonce` key, the session's tracked nonce is updated to exactly that
value in the returned state — whether or not the response also signals an
error (any error is raised only from `send_core`, after the state update,
and the mutated state survives the raise). -/
theorem send_updates_card_nonce (env : Env) (rs : RS) (cmd : String) (ro : Bool)
    (args : Dict) (v : Value)
    (h : ((env.tr cmd args).2).dget "card_nonce" = some v) :
    ((send cmd ro args env rs).1).card.card_nonce = some v := by
  rw [send_run]
  simp only [send_core_fst]
  unfold send_track_nonce
  rw [dget_annotate_ne _ _ _ (by decide) (by decide), h]

def envC1 : Env := { envBase with tr := fun _ _ => (SW_OKAY, [("card_nonce", .bytes [9])]) }

theorem send_updates_card_nonce_witness :
    ((send "status" true [] envC1 { card := {} }).1).card.card_nonce = some (.bytes [9]) :=
  send_updates_card_nonce envC1 { card := {} } "status" true [] (.bytes [9]) rfl

/-- C2: for every call to `send` with `raise_on_error` at its default
(`true`): a non-success status word is treated as failure — an `error`
description is synthesized when absent and the raw status word is attached
to the result — and any response containing an `error` field raises one
structured `CardRuntimeError` carrying the command name, a numeric code
defaulting to 500 when absent, and the message; with `raise_on_error`
`false` the (annotated) result map is returned instead. -/
theorem send_error_handling (env : Env) (rs : RS) (cmd : String) (args : Dict)
    (sw : Nat) (resp0 : Dict) (htr : env.tr cmd args = (sw, resp0)) :
    (sw ≠ SW_OKAY →
      (send_annotate sw resp0).dmem "error" = true ∧
      (send_annotate sw resp0).dget "stat_word" = some (.int sw) ∧
      (resp0.dmem "error" = false →
        (send_annotate sw resp0).dget "error" =
          some (.str ("Got error SW value: " ++ hex04 sw)))) ∧
    ((send_annotate sw resp0).dmem "error" = true →
      (send cmd true args env rs).2 =
        .error (.cardRuntimeError cmd (((send_annotate sw resp0).dget "code").getD (.int 500))
                 (((send_annotate sw resp0).dget "error").getD .pynone))) ∧
    (send cmd false args env rs).2 = .ok (send_annotate sw resp0) := by
  refine ⟨?_, ?_, ?_⟩
  · intro hsw
    refine ⟨?_, ?_, ?_⟩
    · unfold send_annotate
      rw [if_pos hsw]
      by_cases he : resp0.dmem "error"
      · rw [if_pos he]
        simp [Dict.dmem, Dict.dget_dinsert_ne _ "stat_word" "error" _ (by decide)]
        simpa [Dict.dmem] using he
      · rw [if_neg he]
        simp [Dict.dmem, Dict.dget_dinsert_ne _ "stat_word" "error" _ (by decide),
          Dict.dget_dinsert_self]
    · unfold send_annotate
      rw [if_pos hsw, Dict.dget_dinsert_self]
    · intro he
      unfold send_annotate
      rw [if_pos hsw, if_neg (by simp [he]),
        Dict.dget_dinsert_ne _ "stat_word" "error" _ (by decide),
        Dict.dget_dinsert_self]
  · intro he
    rw [send_run, htr]
    unfold send_core
    rw [if_pos (by simp [he])]
  · rw [send_run, htr]
    unfold send_core
    rw [if_neg (by simp)]

def envC2 : Env := { envBase with tr := fun _ _ => (0x6d00, [("x", .int 5)]) }

theorem send_error_handling_witness :
    (send "status" true [] envC2 { card := {} }).2 =
      .error (.cardRuntimeError "status" (.int 500) (.str "Got error SW value: 0x6d00")) :=
  (send_error_handling envC2 { card := {} } "status" [] 0x6d00 [("x", .int 5)] rfl).2.1
    (by decide)

/-- C3: in `send_auth`, exactly two commands have an argument masked by XOR
with the freshly derived session key before transmission: `sign` masks its
`digest` over the full session key, `change` masks its `data` over only the
first `len(data)` bytes of the session key; every other command transmits
its arguments (plus the auth fields) unmasked.  The final part ties the
preparation to transmission: the prepared arguments are exactly what is
handed to the transport. -/
theorem send_auth_masking (env : Env) (cmd : String) (cvc : Value) (args : Dict)
    (cn pk : Value) (skb : List Nat) (aargs : Dict)
    (hcvc : cvc.truthy = true)
    (hcalc : env.calc_xcvc cmd cn pk cvc = .ok (.bytes skb, aargs)) :
    (∀ d : List Nat, cmd = "sign" →
      (args.dupdate aargs).dget "digest" = some (.bytes d) →
      d.length = skb.length →
      send_auth_prep env cmd cvc args (some cn) (some pk) =
        .ok (.bytes skb,
          (args.dupdate aargs).dinsert "digest"
            (.bytes (List.zipWith (fun x y => x ^^^ y) d skb)))) ∧
    (∀ d : List Nat, cmd = "change" →
      (args.dupdate aargs).dget "data" = some (.bytes d) →
      d.length ≤ skb.length →
      send_auth_prep env cmd cvc args (some cn) (some pk) =
        .ok (.bytes skb,
          (args.dupdate aargs).dinsert "data"
            (.bytes (List.zipWith (fun x y => x ^^^ y) d (skb.take d.length))))) ∧
    (cmd ≠ "sign" → cmd ≠ "change" →
      send_auth_prep env cmd cvc args (some cn) (some pk) =
        .ok (.bytes skb, args.dupdate aargs)) ∧
    (∀ (rs : RS) (sk1 : Value) (fargs : Dict),
      rs.card.card_nonce = some cn → rs.card.card_pubkey = some pk →
      send_auth_prep env cmd cvc args (some cn) (some pk) = .ok (sk1, fargs) →
      (send_auth cmd cvc args env rs).1.sent = rs.sent ++ [(cmd, fargs)]) := by
  refine ⟨?_, ?_, ?_, ?_⟩
  · intro d hcmd hdig hlen
    subst hcmd
    unfold send_auth_prep
    rw [if_pos hcvc]
    simp only [hcalc, Except.bind]
    unfold send_auth_mask
    rw [if_pos rfl, hdig]
    simp [xor_bytes, hlen, Except.map]
  · intro d hcmd hdat hlen
    subst hcmd
    unfold send_auth_prep
    rw [if_pos hcvc]
    simp only [hcalc, Except.bind]
    unfold send_auth_mask
    rw [if_neg (by decide), if_pos rfl, hdat]
    simp [Value.pyLen, pySlice0, Except.bind, xor_bytes, Except.map, List.length_take,
      Nat.min_eq_left hlen]
  · intro h1 h2
    unfold send_auth_prep
    rw [if_pos hcvc]
    simp only [hcalc, Except.bind]
    unfold send_auth_mask
    rw [if_neg h1, if_neg h2]
    rfl
  · intro rs sk1 fargs hn hp hprep
    rcases h : send cmd true fargs env rs with ⟨rs1, r⟩
    have h2 := h.symm.trans (send_run cmd true fargs env rs)
    simp only [Prod.mk.injEq] at h2
    unfold send_auth
    rw [hn, hp, hprep]
    simp only [h]
    cases r <;> simp [h2.1]

theorem send_auth_masking_witness :
    send_auth_prep envBase "sign" (.bytes [1, 2, 3, 4, 5, 6])
        [("digest", .bytes (List.replicate 32 0))] (some (.bytes [8])) (some (.bytes [9])) =
      .ok (.bytes (List.replicate 32 7),
        [("digest", .bytes (List.replicate 32 7)), ("epubkey", .bytes [2]),
         ("xcvc", .bytes [3])]) :=
  (send_auth_masking envBase "sign" (.bytes [1, 2, 3, 4, 5, 6])
      [("digest", .bytes (List.replicate 32 0))] (.bytes [8]) (.bytes [9])
      (List.replicate 32 7) [("epubkey", .bytes [2]), ("xcvc", .bytes [3])]
      rfl rfl).1 (List.replicate 32 0) rfl rfl rfl

/-- C10: calling `send_auth` for `sign` or `change` with a falsy CVC (`None`
or empty) raises a `TypeError` during the XOR masking step — the session
key is `None` on the unauthenticated path — and nothing is transmitted
(the run state, including the trace of sent commands, is unchanged). -/
theorem send_auth_unauth_mask_typeerror (env : Env) (rs : RS) (cvc : Value)
    (args : Dict) (hcvc : cvc.truthy = false) :
    (∀ d : Value, args.dget "digest" = some d →
      send_auth "sign" cvc args env rs =
        (rs, .error (.typeError "xor_bytes: arguments must be bytes"))) ∧
    (∀ (d : Value) (n : Nat), args.dget "data" = some d → d.pyLen = some n →
      send_auth "change" cvc args env rs =
        (rs, .error (.typeError "object is not subscriptable"))) := by
  constructor
  · intro d hd
    unfold send_auth send_auth_prep
    rw [hcvc]
    simp only [Bool.false_eq_true, if_false]
    unfold send_auth_mask
    rw [if_pos rfl, hd]
    cases d <;> rfl
  · intro d n hd hn
    unfold send_auth send_auth_prep
    rw [hcvc]
    simp only [Bool.false_eq_true, if_false]
    unfold send_auth_mask
    rw [if_neg (by decide), if_pos rfl, hd]
    simp [hn, pySlice0, Except.bind, Except.map]

theorem send_auth_unauth_mask_typeerror_witness :
    send_auth "sign" .pynone [("digest", .bytes (List.replicate 32 0))] envBase
        { card := {} } =
      ({ card := {} }, .error (.typeError "xor_bytes: arguments must be bytes")) :=
  (send_auth_unauth_mask_typeerror envBase { card := {} } .pynone
      [("digest", .bytes (List.replicate 32 0))] rfl).1 (.bytes (List.replicate 32 0)) rfl

/-- C8: a secret code whose length is outside 6 to 32 bytes makes the
privileged operation fail immediately, before any command is transmitted
and with the run state unchanged (never partially executing):
`change_cvc` fails its own assertion on the new code, and any command sent
through `send_auth` with such a (non-empty) code fails in the session-key
derivation. -/
theorem secret_code_length_guard (env : Env) (rs : RS) (cvc : Value) (n : Nat)
    (hlen : cvc.pyLen = some n) (hbad : ¬ (6 ≤ n ∧ n ≤ 32)) :
    (∀ old : Value, change_cvc old cvc env rs =
      (rs, .error (.assertionError "6 <= len(new_cvc) <= 32"))) ∧
    (cvc.truthy = true → ∀ (cmd : String) (args : Dict),
      ∃ e : PyErr, send_auth cmd cvc args env rs = (rs, .error e)) := by
  constructor
  · intro old
    unfold change_cvc
    rw [hlen]
    simp only [if_pos hbad]
    rfl
  · intro hne cmd args
    rcases hcn : rs.card.card_nonce with _ | cn
    · exact ⟨.attributeError "card_nonce", by
        unfold send_auth send_auth_prep
        simp [hne, hcn]⟩
    · rcases hpk : rs.card.card_pubkey with _ | pk
      · exact ⟨.attributeError "card_pubkey", by
          unfold send_auth send_auth_prep
          simp [hne, hcn, hpk]⟩
      · exact ⟨.valueError "calc_xcvc: CVC must be 6 to 32 characters", by
          unfold send_auth send_auth_prep Env.calc_xcvc
          simp [hne, hcn, hpk, hlen, hbad, Except.bind]⟩

theorem secret_code_length_guard_witness :
    change_cvc .pynone (.bytes [1, 2, 3]) envBase { card := {} } =
      ({ card := {} }, .error (.assertionError "6 <= len(new_cvc) <= 32")) :=
  (secret_code_length_guard envBase { card := {} } (.bytes [1, 2, 3]) 3 rfl
    (by decide)).1 .pynone

theorem get_slot_status_spec (env : Env) (rs rs2 : RS) (sk slot : Value)
    (here : Dict) (av : Value) (st : String)
    (H : get_slot_status sk slot here env rs = (rs2, .ok (av, st))) :
    (st = "sealed" ∨ st = "UNSEALED" ∨ st = "unused") ∧
    (st = "sealed" ↔
      ((here.dget "sealed").getD .pynone).pyEq (.bool true) = true) ∧
    (st = "UNSEALED" ↔
      (((here.dget "sealed").getD .pynone).pyEq (.bool true) = false ∧
       (((here.dget "sealed").getD .pynone).pyEq (.bool false) || here.dmem "privkey") = true)) ∧
    (st = "unused" ↔
      (((here.dget "sealed").getD .pynone).pyEq (.bool true) = false ∧
       (((here.dget "sealed").getD .pynone).pyEq (.bool false) || here.dmem "privkey") = false ∧
       ((here.dget "used").getD .pynone).pyEq (.bool false) = true)) := by
  unfold get_slot_status M.bind M.attr M.raise M.pure M.lift M.subscript at H
  repeat' (first
    | dsimp only at H
    | split at H
    | simp only [ite_apply] at H)
  all_goals
    first
      | (simp_all; done)
      | (simp only [Prod.mk.injEq, Except.ok.injEq] at H
         obtain ⟨h1, h2, h3⟩ := H
         subst h3
         simp_all)

/-- C6: `get_slot_usage` classifies every successfully-dumped slot into
exactly one of the statuses `sealed` / `UNSEALED` / `unused`, in order —
`sealed == True` first, then `sealed == False` or a `privkey` field, then
`used == False` — and a dump matching none of these raises a
distinguishing `ValueError` rather than returning a silent default. -/
theorem get_slot_usage_classification (env : Env) (rs : RS) (slot cvc : Value) :
    (∀ (rs' : RS) (addr : Value) (status : String) (here : Dict),
      get_slot_usage slot cvc env rs = (rs', .ok (addr, status, here)) →
      (status = "sealed" ∨ status = "UNSEALED" ∨ status = "unused") ∧
      (status = "sealed" ↔
        ((here.dget "sealed").getD .pynone).pyEq (.bool true) = true) ∧
      (status = "UNSEALED" ↔
        (((here.dget "sealed").getD .pynone).pyEq (.bool true) = false ∧
         (((here.dget "sealed").getD .pynone).pyEq (.bool false) || here.dmem "privkey") = true)) ∧
      (status = "unused" ↔
        (((here.dget "sealed").getD .pynone).pyEq (.bool true) = false ∧
         (((here.dget "sealed").getD .pynone).pyEq (.bool false) || here.dmem "privkey") = false ∧
         ((here.dget "used").getD .pynone).pyEq (.bool false) = true))) ∧
    (∀ (tv : Value) (here : Dict),
      rs.card.is_tapsigner = some tv → tv.truthy = false →
      cvc.truthy = false →
      env.tr "dump" [("slot", slot)] = (SW_OKAY, here) →
      here.dmem "error" = false →
      ((here.dget "sealed").getD .pynone).pyEq (.bool true) = false →
      ((here.dget "sealed").getD .pynone).pyEq (.bool false) = false →
      here.dmem "privkey" = false →
      ((here.dget "used").getD .pynone).pyEq (.bool false) = false →
      (get_slot_usage slot cvc env rs).2 =
        .error (.valueError "unclassifiable slot dump")) := by
  constructor
  · intro rs' addr status here H
    unfold get_slot_usage M.bind M.attr M.raise M.pure at H
    simp only [ite_apply] at H
    rcases h1 : rs.card.is_tapsigner with _ | tap
    · rw [h1] at H
      simp at H
    · rw [h1] at H
      try dsimp only at H
      by_cases htap : tap.truthy = true
      · rw [if_pos htap] at H
        simp at H
      · rw [if_neg htap] at H
        try dsimp only at H
        rcases h2 : send_auth "dump" cvc [("slot", slot)] env rs with ⟨rs1, r1⟩
        rw [h2] at H
        cases r1 with
        | error e => simp at H
        | ok p =>
            try dsimp only at H
            rcases h3 : get_slot_status p.1 slot p.2 env rs1 with ⟨rs2, r2⟩
            rw [h3] at H
            cases r2 with
            | error e => simp at H
            | ok pr =>
                obtain ⟨av, st⟩ := pr
                try dsimp only at H
                simp only [Prod.mk.injEq, Except.ok.injEq] at H
                obtain ⟨-, -, hst, hh⟩ := H
                subst hst
                subst hh
                exact get_slot_status_spec env rs1 rs2 p.1 slot p.2 av st h3
  · intro tv here htap htapf hcvc htr herr hc1 hc2 hc3 hc4
    unfold get_slot_usage M.bind M.attr M.raise M.pure
    rw [htap]
    simp only [ite_apply, htapf, Bool.false_eq_true, if_false]
    unfold send_auth send_auth_prep send_auth_mask
    simp only [hcvc, Bool.false_eq_true, if_false,
      if_neg (by decide : ¬ ("dump" = "sign")),
      if_neg (by decide : ¬ ("dump" = "change")), Except.map]
    rw [send_run, htr]
    unfold send_core send_annotate
    simp only [ne_eq, not_true_eq_false, if_false, Bool.and_eq_true, herr, Bool.true_and,
      Bool.false_eq_true, and_false, if_false]
    unfold get_slot_status
    simp [hc1, hc2, hc3, hc4, M.raise]

def envC6 : Env :=
  { envBase with
    tr := fun cmd _ =>
      if cmd = "dump" then (SW_OKAY, [("sealed", .bool true), ("addr", .str "bc1qx")])
      else (SW_OKAY, []) }

def rsC6 : RS :=
  { card := { is_tapsigner := some (.bool false), active_slot := some (.int 0) } }

theorem get_slot_usage_classification_witness :
    ("sealed" = "sealed" ∨ "sealed" = "UNSEALED" ∨ "sealed" = "unused") ∧
    ("sealed" = "sealed" ↔
      (((Dict.dget [("sealed", Value.bool true), ("addr", Value.str "bc1qx")]
        "sealed").getD .pynone).pyEq (.bool true) = true)) :=
  ⟨((get_slot_usage_classification envC6 rsC6 (.int 1) .pynone).1
      { rsC6 with sent := [("dump", [("slot", .int 1)])] } (.str "bc1qx") "sealed"
      [("sealed", .bool true), ("addr", .str "bc1qx")] rfl).1,
   ((get_slot_usage_classification envC6 rsC6 (.int 1) .pynone).1
      { rsC6 with sent := [("dump", [("slot", .int 1)])] } (.str "bc1qx") "sealed"
      [("sealed", .bool true), ("addr", .str "bc1qx")] rfl).2.1⟩

theorem send_annotate_okay (resp : Dict) : send_annotate SW_OKAY resp = resp := by
  unfold send_annotate
  simp

theorem send_ok_of (env : Env) (rs : RS) (cmd : String) (args resp : Dict)
    (htr : env.tr cmd args = (SW_OKAY, resp)) (herr : resp.dmem "error" = false) :
    send cmd true args env rs =
      ({ rs with sent := rs.sent ++ [(cmd, args)],
                 card := send_track_nonce resp rs.card }, .ok resp) := by
  rw [send_run, htr]
  unfold send_core
  rw [send_annotate_okay, herr]
  simp

theorem send_track_nonce_some (resp : Dict) (c : CardState) (n2 : Value)
    (h : resp.dget "card_nonce" = some n2) :
    send_track_nonce resp c = { c with card_nonce := some n2 } := by
  unfold send_track_nonce
  rw [h]

/-- C4: `unseal_slot` targets only the active slot.  A dump reporting
`sealed == False` fails with the distinguishing "already been unsealed"
error without the authenticated `unseal` command ever being sent (the
trace gains only the `dump`); a dump not reporting `sealed == True` fails
with the distinct "not been used yet" error, likewise without sending
`unseal`; and on success the result is the response's masked private key
XORed with the session key, paired with the active slot index. -/
theorem unseal_slot_lifecycle (env : Env) (rs : RS) (cvc tv target : Value)
    (htap : rs.card.is_tapsigner = some tv) (htapf : tv.truthy = false)
    (hact : rs.card.active_slot = some target) :
    (∀ dresp : Dict,
      env.tr "dump" [("slot", target)] = (SW_OKAY, dresp) →
      dresp.dmem "error" = false →
      ((dresp.dget "sealed").getD .pynone).pyEq (.bool false) = true →
      unseal_slot cvc env rs =
        ({ rs with sent := rs.sent ++ [("dump", [("slot", target)])],
                   card := send_track_nonce dresp rs.card },
         .error (.runtimeError ("Slot " ++ target.fmt ++ " has already been unsealed.")))) ∧
    (∀ dresp : Dict,
      env.tr "dump" [("slot", target)] = (SW_OKAY, dresp) →
      dresp.dmem "error" = false →
      ((dresp.dget "sealed").getD .pynone).pyEq (.bool false) = false →
      ((dresp.dget "sealed").getD .pynone).pyEq (.bool true) = false →
      unseal_slot cvc env rs =
        ({ rs with sent := rs.sent ++ [("dump", [("slot", target)])],
                   card := send_track_nonce dresp rs.card },
         .error (.runtimeError ("Slot " ++ target.fmt ++ " has not been used yet.")))) ∧
    (∀ (dresp uresp aargs : Dict) (n2 pk0 : Value) (skb pkb : List Nat),
      env.tr "dump" [("slot", target)] = (SW_OKAY, dresp) →
      dresp.dmem "error" = false →
      ((dresp.dget "sealed").getD .pynone).pyEq (.bool true) = true →
      dresp.dget "card_nonce" = some n2 →
      rs.card.card_pubkey = some pk0 →
      cvc.truthy = true →
      env.calc_xcvc "unseal" n2 pk0 cvc = .ok (.bytes skb, aargs) →
      env.tr "unseal" (Dict.dupdate [("slot", target)] aargs) = (SW_OKAY, uresp) →
      uresp.dmem "error" = false →
      uresp.dget "privkey" = some (.bytes pkb) →
      skb.length = pkb.length →
      (unseal_slot cvc env rs).2 =
        .ok (.bytes (List.zipWith (fun x y => x ^^^ y) skb pkb), target)) := by
  refine ⟨?_, ?_, ?_⟩
  · intro dresp htr herr hsf
    unfold unseal_slot M.bind M.attr M.raise
    rw [htap]
    dsimp only
    simp only [htapf, Bool.false_eq_true, if_false]
    rw [hact]
    dsimp only
    rw [send_ok_of env _ "dump" [("slot", target)] dresp htr herr]
    dsimp only
    rw [hsf]
    simp
  · intro dresp htr herr hsf hst
    unfold unseal_slot M.bind M.attr M.raise
    rw [htap]
    dsimp only
    simp only [htapf, Bool.false_eq_true, if_false]
    rw [hact]
    dsimp only
    rw [send_ok_of env _ "dump" [("slot", target)] dresp htr herr]
    dsimp only
    rw [hsf, hst]
    simp
  · intro dresp uresp aargs n2 pk0 skb pkb htr herr hst hn2 hpk hcvc hcalc htr2 herr2 hpriv hlen
    unfold unseal_slot M.bind M.attr M.raise M.subscript M.lift M.pure
    rw [htap]
    dsimp only
    simp only [htapf, Bool.false_eq_true, if_false]
    rw [hact]
    dsimp only
    rw [send_ok_of env _ "dump" [("slot", target)] dresp htr herr]
    dsimp only
    have hsf : ((dresp.dget "sealed").getD .pynone).pyEq (.bool false) = false := by
      rcases hv : (dresp.dget "sealed").getD .pynone with _ | b | n | s | bs | l <;>
        rw [hv] at hst <;> simp [Value.pyEq] at hst ⊢ <;> simp_all [Value.pyEq]
    rw [hsf, hst]
    simp only [Bool.false_eq_true, if_false, not_true_eq_false, Bool.not_true, if_true]
    unfold send_auth
    rw [send_track_nonce_some dresp rs.card n2 hn2]
    unfold send_auth_prep
    rw [hcvc]
    dsimp only
    rw [show ({ rs.card with card_nonce := some n2 } : CardState).card_pubkey =
        rs.card.card_pubkey from rfl, hpk]
    dsimp only
    rw [hcalc]
    unfold send_auth_mask
    simp only [String.reduceEq, ite_false, ite_true, eq_self_iff_true]
    dsimp only [Except.bind, Except.map]
    rw [send_ok_of env _ "unseal" (Dict.dupdate [("slot", target)] aargs) uresp htr2 herr2]
    dsimp only
    rw [hpriv]
    dsimp only
    unfold xor_bytes
    simp [hlen]

def envC4 : Env :=
  { envBase with
    tr := fun cmd _ =>
      if cmd = "dump" then (SW_OKAY, [("sealed", .bool false)]) else (SW_OKAY, []) }

def rsC4 : RS :=
  { card := { is_tapsigner := some (.bool false), active_slot := some (.int 0) } }

theorem unseal_slot_lifecycle_witness :
    unseal_slot (.bytes [1, 2, 3, 4, 5, 6]) envC4 rsC4 =
      ({ rsC4 with sent := [("dump", [("slot", .int 0)])],
                   card := send_track_nonce [("sealed", .bool false)] rsC4.card },
       .error (.runtimeError "Slot 0 has already been unsealed.")) :=
  (unseal_slot_lifecycle envC4 rsC4 (.bytes [1, 2, 3, 4, 5, 6]) (.bool false) (.int 0)
    rfl rfl rfl).1 [("sealed", .bool false)] rfl rfl rfl

theorem send_track_nonce_certs (resp : Dict) (c : CardState) :
    (send_track_nonce resp c).certs_checked = c.certs_checked := by
  unfold send_track_nonce
  split <;> rfl

theorem send_certs_preserved (cmd : String) (ro : Bool) (args : Dict) (env : Env)
    (rs rs1 : RS) (r : Except PyErr Dict) (h : send cmd ro args env rs = (rs1, r)) :
    rs1.card.certs_checked = rs.card.certs_checked := by
  have h2 := h.symm.trans (send_run cmd ro args env rs)
  simp only [Prod.mk.injEq] at h2
  rw [h2.1]
  simp [send_core_fst, send_track_nonce_certs]

theorem send_sent_of (cmd : String) (ro : Bool) (args : Dict) (env : Env)
    (rs rs1 : RS) (r : Except PyErr Dict) (h : send cmd ro args env rs = (rs1, r)) :
    rs1.sent = rs.sent ++ [(cmd, args)] := by
  have h2 := h.symm.trans (send_run cmd ro args env rs)
  simp only [Prod.mk.injEq] at h2
  rw [h2.1]

/-- A computation only ever hands commands from `cs` to the transport:
whatever reaches the trace beyond the starting trace has its name in
`cs`. -/
def SendsOnly (cs : List String) (m : M α) : Prop :=
  ∀ (env : Env) (rs rs' : RS) (r : Except PyErr α), m env rs = (rs', r) →
    ∀ p, p ∈ rs'.sent → p ∈ rs.sent ∨ p.1 ∈ cs

theorem sendsOnly_of_sent_eq {m : M α}
    (h : ∀ (env : Env) (rs : RS), ((m env rs).1).sent = rs.sent) (cs : List String) :
    SendsOnly cs m := by
  intro env rs rs' r he p hp
  have := h env rs
  rw [he] at this
  rw [this] at hp
  exact Or.inl hp

theorem sendsOnly_send (cs : List String) (cmd : String) (ro : Bool) (args : Dict)
    (h : cmd ∈ cs) : SendsOnly cs (send cmd ro args) := by
  intro env rs rs' r he p hp
  rw [send_sent_of cmd ro args env rs rs' r he] at hp
  rcases List.mem_append.1 hp with h1 | h2
  · exact Or.inl h1
  · right
    simp only [List.mem_singleton] at h2
    rw [h2]
    exact h

theorem sendsOnly_bind {x : M α} {f : α → M β} (cs : List String)
    (hx : SendsOnly cs x) (hf : ∀ a, SendsOnly cs (f a)) :
    SendsOnly cs (M.bind x f) := by
  intro env rs rs' r he p hp
  unfold M.bind at he
  rcases h1 : x env rs with ⟨rs1, r1⟩
  rw [h1] at he
  cases r1 with
  | ok a =>
      rcases hf a env rs1 rs' r he p hp with h2 | h2
      · exact hx env rs rs1 (.ok a) h1 p h2
      · exact Or.inr h2
  | error e =>
      simp only [Prod.mk.injEq] at he
      rw [← he.1] at hp
      exact hx env rs rs1 (.error e) h1 p hp

theorem sendsOnly_ite {m1 m2 : M α} (cs : List String) (P : Prop) [Decidable P]
    (h1 : SendsOnly cs m1) (h2 : SendsOnly cs m2) :
    SendsOnly cs (if P then m1 else m2) := by
  by_cases h : P
  · rw [if_pos h]; exact h1
  · rw [if_neg h]; exact h2

theorem sendsOnly_send_auth (cs : List String) (cmd : String) (cvc : Value)
    (args : Dict) (h : cmd ∈ cs) : SendsOnly cs (send_auth cmd cvc args) := by
  intro env rs rs' r he p hp
  unfold send_auth at he
  rcases hprep : send_auth_prep env cmd cvc args rs.card.card_nonce rs.card.card_pubkey
    with _ | q
  · rw [hprep] at he
    simp only [Prod.mk.injEq] at he
    rw [← he.1] at hp
    exact Or.inl hp
  · rw [hprep] at he
    dsimp only at he
    rcases hs : send cmd true q.2 env rs with ⟨rs1, r1⟩
    rw [hs] at he
    cases r1 <;> simp only [Prod.mk.injEq] at he <;> rw [← he.1] at hp <;>
      exact sendsOnly_send cs cmd true q.2 h env rs rs1 _ hs p hp

theorem sendsOnly_pure (cs : List String) (a : α) : SendsOnly cs (M.pure a) :=
  sendsOnly_of_sent_eq (fun _ _ => rfl) cs

theorem sendsOnly_raise (cs : List String) (e : PyErr) :
    SendsOnly cs (M.raise e : M α) :=
  sendsOnly_of_sent_eq (fun _ _ => rfl) cs

theorem sendsOnly_lift (cs : List String) (x : Except PyErr α) :
    SendsOnly cs (M.lift x) :=
  sendsOnly_of_sent_eq (fun _ rs => by unfold M.lift; rfl) cs

theorem sendsOnly_subscript (cs : List String) (d : Dict) (k : String) :
    SendsOnly cs (M.subscript d k) :=
  sendsOnly_of_sent_eq (fun _ rs => by unfold M.subscript; split <;> rfl) cs

theorem sendsOnly_attr (cs : List String) (n : String) (f : CardState → Option Value) :
    SendsOnly cs (M.attr n f) :=
  sendsOnly_of_sent_eq (fun _ rs => by unfold M.attr; split <;> rfl) cs

theorem sendsOnly_pick_nonce (cs : List String) : SendsOnly cs M.pick_nonce :=
  sendsOnly_of_sent_eq (fun _ _ => rfl) cs

theorem sendsOnly_address_body (faster incl_pubkey : Bool) (slot : Value) :
    SendsOnly ["status", "dump", "read", "derive"]
      (address_body faster incl_pubkey slot) := by
  unfold address_body
  apply sendsOnly_bind
  · exact sendsOnly_send _ _ _ _ (by simp)
  intro st
  apply sendsOnly_bind
  · exact sendsOnly_subscript _ _ _
  intro slots
  apply sendsOnly_bind
  · exact sendsOnly_lift _ _
  intro cur_slot
  dsimp only
  apply sendsOnly_ite
  · exact sendsOnly_pure _ _
  apply sendsOnly_ite
  · apply sendsOnly_bind
    · exact sendsOnly_send _ _ _ _ (by simp)
    intro rr
    apply sendsOnly_ite
    · exact sendsOnly_raise _ _
    apply sendsOnly_bind
    · exact sendsOnly_subscript _ _ _
    intro v
    exact sendsOnly_pure _ _
  apply sendsOnly_bind
  · exact sendsOnly_pick_nonce _
  intro n
  apply sendsOnly_bind
  · exact sendsOnly_send _ _ _ _ (by simp)
  intro rr
  apply sendsOnly_bind
  · exact sendsOnly_of_sent_eq (fun _ _ => rfl) _
  intro pa
  apply sendsOnly_bind
  · apply sendsOnly_ite
    · apply sendsOnly_bind
      · exact sendsOnly_pick_nonce _
      intro my_nonce
      apply sendsOnly_bind
      · exact sendsOnly_attr _ _ _
      intro card_nonce
      apply sendsOnly_bind
      · exact sendsOnly_send _ _ _ _ (by simp)
      intro rr2
      apply sendsOnly_bind
      · exact sendsOnly_subscript _ _ _
      intro mp
      apply sendsOnly_bind
      · exact sendsOnly_subscript _ _ _
      intro sig
      apply sendsOnly_bind
      · exact sendsOnly_subscript _ _ _
      intro chain_code
      apply sendsOnly_bind
      · exact sendsOnly_of_sent_eq (fun _ _ => rfl) _
      intro master_pub
      apply sendsOnly_bind
      · exact sendsOnly_attr _ _ _
      intro tn
      apply sendsOnly_bind
      · exact sendsOnly_of_sent_eq (fun _ _ => rfl) _
      intro da
      apply sendsOnly_ite
      · exact sendsOnly_raise _ _
      · exact sendsOnly_pure _ _
    · exact sendsOnly_pure _ _
  intro u
  apply sendsOnly_ite
  · exact sendsOnly_pure _ _
  · exact sendsOnly_pure _ _

/-- C7: the certificate-checked flag is sticky.  A successful
`certificate_check` sets it; if verification (or any step) raises, the
cached flag is unchanged; and an `address` call in a state with the flag
set only ever sends `status`/`dump`/`read`/`derive` — never `certs` or
`check`, i.e. re-verification is skipped. -/
theorem certificate_flag_sticky (env : Env) (rs : RS) :
    (∀ (rs' : RS) (v : Value), certificate_check env rs = (rs', .ok v) →
      rs'.card.certs_checked = some true) ∧
    (∀ (rs' : RS) (e : PyErr), certificate_check env rs = (rs', .error e) →
      rs'.card.certs_checked = rs.card.certs_checked) ∧
    (∀ (faster incl_pubkey : Bool) (slot : Value) (p : String × Dict),
      rs.card.certs_checked = some true →
      p ∈ (address faster incl_pubkey slot env rs).1.sent →
      p ∈ rs.sent ∨ p.1 ∈ (["status", "dump", "read", "derive"] : List String)) := by
  have key : ∀ (rs' : RS) (r : Except PyErr Value), certificate_check env rs = (rs', r) →
      ((∃ v, r = .ok v) → rs'.card.certs_checked = some true) ∧
      ((∃ e, r = .error e) → rs'.card.certs_checked = rs.card.certs_checked) := by
    intro rs' r H
    unfold certificate_check M.bind M.pick_nonce M.modCard M.pure at H
    rcases h1 : send "status" true [] env rs with ⟨rs1, r1⟩
    rw [h1] at H
    have f1 := send_certs_preserved _ _ _ _ _ _ _ h1
    cases r1 with
    | error e =>
        dsimp only at H
        simp only [Prod.mk.injEq] at H
        rw [← H.1, ← H.2]
        exact ⟨(by rintro ⟨v, hv⟩; simp at hv), fun _ => f1⟩
    | ok st =>
        dsimp only at H
        rcases h2 : send "certs" true [] env rs1 with ⟨rs2, r2⟩
        rw [h2] at H
        have f2 := send_certs_preserved _ _ _ _ _ _ _ h2
        cases r2 with
        | error e =>
            dsimp only at H
            simp only [Prod.mk.injEq] at H
            rw [← H.1, ← H.2]
            exact ⟨(by rintro ⟨v, hv⟩; simp at hv), fun _ => f2.trans f1⟩
        | ok certs =>
            dsimp only at H
            rcases h3 : send "check" true [("nonce", env.nonces rs2.nidx)] env
                { rs2 with nidx := rs2.nidx + 1 } with ⟨rs3, r3⟩
            rw [h3] at H
            have f3 := send_certs_preserved _ _ _ _ _ _ _ h3
            cases r3 with
            | error e =>
                dsimp only at H
                simp only [Prod.mk.injEq] at H
                rw [← H.1, ← H.2]
                exact ⟨(by rintro ⟨v, hv⟩; simp at hv), fun _ => f3.trans (f2.trans f1)⟩
            | ok check =>
                dsimp only at H
                rcases hv : env.verify_certs st check certs (env.nonces rs2.nidx)
                  with e | rv
                · rw [hv] at H
                  dsimp only at H
                  simp only [Prod.mk.injEq] at H
                  rw [← H.1, ← H.2]
                  exact ⟨(by rintro ⟨v, hw⟩; simp at hw), fun _ => f3.trans (f2.trans f1)⟩
                · rw [hv] at H
                  dsimp only at H
                  simp only [Prod.mk.injEq] at H
                  rw [← H.1, ← H.2]
                  exact ⟨fun _ => rfl, (by rintro ⟨e, he⟩; simp at he)⟩
  refine ⟨?_, ?_, ?_⟩
  · intro rs' v H
    exact ((key rs' (.ok v) H).1) ⟨v, rfl⟩
  · intro rs' e H
    exact ((key rs' (.error e) H).2) ⟨e, rfl⟩
  · intro faster incl_pubkey slot p hcc hp
    unfold address M.bind M.attr M.raise M.pure at hp
    rcases h1 : rs.card.is_tapsigner with _ | tap
    · rw [h1] at hp
      dsimp only at hp
      exact Or.inl hp
    · rw [h1] at hp
      dsimp only at hp
      by_cases htap : tap.truthy = true
      · rw [if_pos htap] at hp
        exact Or.inl hp
      · rw [if_neg htap] at hp
        try dsimp only at hp
        rw [hcc] at hp
        try dsimp only at hp
        rw [if_neg (by simp)] at hp
        try dsimp only at hp
        rcases hb : address_body faster incl_pubkey slot env rs with ⟨rsb, rb⟩
        rw [hb] at hp
        have := sendsOnly_address_body faster incl_pubkey slot env rs rsb rb hb p
        cases rb with
        | ok a => exact this hp
        | error e => exact this hp

theorem certificate_flag_sticky_witness :
    (({ card := { certs_checked := some true }, nidx := 1,
        sent := [("status", []), ("certs", []),
                 ("check", [("nonce", Value.bytes [1, 2, 3])])] } : RS)).card.certs_checked =
      some true :=
  (certificate_flag_sticky envBase { card := {} }).1
    { card := { certs_checked := some true }, nidx := 1,
      sent := [("status", []), ("certs", []),
               ("check", [("nonce", Value.bytes [1, 2, 3])])] } .pynone rfl

theorem send_ok_inv (cmd : String) (ro : Bool) (args : Dict) (env : Env)
    (rs rs1 : RS) (st : Dict) (h : send cmd ro args env rs = (rs1, .ok st)) :
    st = send_annotate (env.tr cmd args).1 (env.tr cmd args).2 ∧
    rs1 = { rs with sent := rs.sent ++ [(cmd, args)],
                    card := send_track_nonce st rs.card } := by
  have h2 := h.symm.trans (send_run cmd ro args env rs)
  simp only [Prod.mk.injEq] at h2
  obtain ⟨hrs, hst⟩ := h2
  unfold send_core at hst
  split at hst
  · simp at hst
  · simp only [Except.ok.injEq] at hst
    rw [send_core_fst] at hrs
    exact ⟨hst, by rw [hrs, hst]⟩

theorem send_track_nonce_id (resp : Dict) (c : CardState) :
    (send_track_nonce resp c).card_pubkey = c.card_pubkey ∧
    (send_track_nonce resp c).card_ident = c.card_ident ∧
    (send_track_nonce resp c).applet_version = c.applet_version ∧
    (send_track_nonce resp c).is_testnet = c.is_testnet ∧
    (send_track_nonce resp c).is_tapsigner = c.is_tapsigner := by
  unfold send_track_nonce
  split <;> exact ⟨rfl, rfl, rfl, rfl, rfl⟩

theorem first_look_fields (env : Env) (rs rs1 : RS)
    (H : first_look env rs = (rs1, .ok ())) :
    rs1.card.card_pubkey =
      (send_annotate (env.tr "status" []).1 (env.tr "status" []).2).dget "pubkey" ∧
    rs1.card.card_ident =
      ((send_annotate (env.tr "status" []).1 (env.tr "status" []).2).dget "pubkey").map
        env.card_pubkey_to_ident ∧
    rs1.card.applet_version =
      (send_annotate (env.tr "status" []).1 (env.tr "status" []).2).dget "ver" ∧
    rs1.card.is_testnet =
      some (((send_annotate (env.tr "status" []).1 (env.tr "status" []).2).dget
        "testnet").getD (.bool false)) ∧
    rs1.card.is_tapsigner =
      some (((send_annotate (env.tr "status" []).1 (env.tr "status" []).2).dget
        "tapsigner").getD (.bool false)) ∧
    (∃ nv, rs1.card.card_nonce = some nv ∧ nv.truthy = true) := by
  unfold first_look M.bind M.subscript M.modCard M.raise M.getCard at H
  rcases hs : send "status" true [] env rs with ⟨rsA, r1⟩
  rw [hs] at H
  cases r1 with
  | error e => simp at H
  | ok st =>
      obtain ⟨hst, hrsA⟩ := send_ok_inv "status" true [] env rs rsA st hs
      subst hst
      subst hrsA
      dsimp only at H
      split at H
      · simp at H
      rcases hp : (send_annotate (env.tr "status" []).1
          (env.tr "status" []).2).dget "proto" with _ | proto
      all_goals rw [hp] at H
      · simp at H
      dsimp only at H
      split at H
      · simp at H
      rcases hpk : (send_annotate (env.tr "status" []).1
          (env.tr "status" []).2).dget "pubkey" with _ | pk
      all_goals rw [hpk] at H
      · simp at H
      dsimp only at H
      rcases hv : (send_annotate (env.tr "status" []).1
          (env.tr "status" []).2).dget "ver" with _ | ver
      all_goals rw [hv] at H
      · simp at H
      dsimp only at H
      rcases hsl : ((send_annotate (env.tr "status" []).1
          (env.tr "status" []).2).dget "slots").getD (.list [.int 0, .int 1])
        with _ | b0 | n0 | s0 | bs0 | l0
      all_goals rw [hsl] at H
      · simp at H
      · simp at H
      · simp at H
      · simp at H
      · simp at H
      rcases l0 with _ | ⟨a0, l1⟩
      · simp at H
      rcases l1 with _ | ⟨b1, l2⟩
      · simp at H
      rcases l2 with _ | ⟨c1, l3⟩
      case cons.cons.cons => simp at H
      dsimp only at H
      rcases hn : (send_track_nonce (send_annotate (env.tr "status" []).1
          (env.tr "status" []).2) rs.card).card_nonce with _ | nv
      all_goals rw [hn] at H
      · simp at H
      dsimp only at H
      by_cases ht : nv.truthy = true
      · rw [if_neg (by simp [ht])] at H
        dsimp only at H
        simp only [Prod.mk.injEq] at H
        rw [← H.1]
        dsimp only
        exact ⟨rfl, rfl, rfl, rfl, rfl, nv, rfl, ht⟩
      · rw [if_pos (by simp [ht])] at H
        simp at H

/-- C9: the session's identity fields (card public key, derived identity,
firmware version, network and variant flags) never change after
initialization: `send` — the only primitive mutating the card object —
touches only the tracked nonce, and re-running `first_look` against the
same (deterministic) transport reproduces exactly the same identity
fields; moreover after a successful `first_look` the tracked nonce is a
truthy (non-empty) value. -/
theorem first_look_invariants (env : Env) :
    (∀ (cmd : String) (ro : Bool) (args : Dict) (rs rs1 : RS) (r : Except PyErr Dict),
      send cmd ro args env rs = (rs1, r) →
      rs1.card.card_pubkey = rs.card.card_pubkey ∧
      rs1.card.card_ident = rs.card.card_ident ∧
      rs1.card.applet_version = rs.card.applet_version ∧
      rs1.card.is_testnet = rs.card.is_testnet ∧
      rs1.card.is_tapsigner = rs.card.is_tapsigner) ∧
    (∀ rs0 rs1 rs2 : RS,
      first_look env rs0 = (rs1, .ok ()) →
      first_look env rs1 = (rs2, .ok ()) →
      rs2.card.card_pubkey = rs1.card.card_pubkey ∧
      rs2.card.card_ident = rs1.card.card_ident ∧
      rs2.card.applet_version = rs1.card.applet_version ∧
      rs2.card.is_testnet = rs1.card.is_testnet ∧
      rs2.card.is_tapsigner = rs1.card.is_tapsigner) ∧
    (∀ rs0 rs1 : RS, first_look env rs0 = (rs1, .ok ()) →
      ∃ nv, rs1.card.card_nonce = some nv ∧ nv.truthy = true) := by
  refine ⟨?_, ?_, ?_⟩
  · intro cmd ro args rs rs1 r h
    have h2 := h.symm.trans (send_run cmd ro args env rs)
    simp only [Prod.mk.injEq] at h2
    rw [h2.1]
    simp only [send_core_fst]
    exact send_track_nonce_id _ _
  · intro rs0 rs1 rs2 h1 h2
    obtain ⟨a1, b1, c1, d1, e1, -⟩ := first_look_fields env rs0 rs1 h1
    obtain ⟨a2, b2, c2, d2, e2, -⟩ := first_look_fields env rs1 rs2 h2
    exact ⟨a2.trans a1.symm, b2.trans b1.symm, c2.trans c1.symm,
      d2.trans d1.symm, e2.trans e1.symm⟩
  · intro rs0 rs1 h1
    exact (first_look_fields env rs0 rs1 h1).2.2.2.2.2

def envC9 : Env :=
  { envBase with
    tr := fun cmd _ =>
      if cmd = "status" then
        (SW_OKAY, [("proto", .int 1), ("pubkey", .bytes [5]), ("ver", .str "1.0"),
                   ("card_nonce", .bytes [7])])
      else (SW_OKAY, []) }

theorem first_look_invariants_witness :
    ∃ nv,
      (({ card := { card_nonce := some (.bytes [7]), card_pubkey := some (.bytes [5]),
                    card_ident := some "IDENT", applet_version := some (.str "1.0"),
                    birth_height := some .pynone, is_testnet := some (.bool false),
                    auth_delay := some (.int 0), is_tapsigner := some (.bool false),
                    active_slot := some (.int 0), num_slots := some (.int 1),
                    certs_checked := some false },
          nidx := 0, sent := [("status", [])] } : RS)).card.card_nonce = some nv ∧
      nv.truthy = true :=
  (first_look_invariants envC9).2.2 { card := {} }
    { card := { card_nonce := some (.bytes [7]), card_pubkey := some (.bytes [5]),
                card_ident := some "IDENT", applet_version := some (.str "1.0"),
                birth_height := some .pynone, is_testnet := some (.bool false),
                auth_delay := some (.int 0), is_tapsigner := some (.bool false),
                active_slot := some (.int 0), num_slots := some (.int 1),
                certs_checked := some false },
      nidx := 0, sent := [("status", [])] } rfl

theorem address_body_verify (env : Env) (rs rs' : RS) (incl_pubkey : Bool)
    (slot : Value) (res : AddrResult) (a : String)
    (H : address_body false incl_pubkey slot env rs = (rs', .ok res))
    (hres : res = .addr a ∨ ∃ p, res = .pubkeyAddr p a) :
    (∃ args, ("derive", args) ∈ rs'.sent) ∧
    (∃ (rr2 : Dict) (mp sig cc mpub tn x my_nonce cn : Value),
      rr2.dget "master_pubkey" = some mp ∧
      rr2.dget "sig" = some sig ∧
      rr2.dget "chain_code" = some cc ∧
      env.verify_master_pubkey mp sig cc my_nonce cn = .ok mpub ∧
      env.verify_derive_address cc mpub tn = .ok (a, x)) := by
  unfold address_body M.bind M.attr M.subscript M.lift M.raise M.pure M.pick_nonce at H
  rcases h1 : send "status" true [] env rs with ⟨rs1, r1⟩
  rw [h1] at H
  cases r1 with
  | error e => simp at H
  | ok st =>
  try dsimp only at H
  rcases h2 : st.dget "slots" with _ | slots
  all_goals rw [h2] at H
  · simp at H
  try dsimp only at H
  rcases h3 : pyIndex0 slots with e | cur
  all_goals rw [h3] at H
  · simp at H
  try dsimp only at H
  by_cases hA : (¬ st.dmem "addr" = true ∧
      (cur.pyEq (if slot = Value.pynone then cur else slot)) = true)
  · rw [if_pos hA] at H
    simp only [Prod.mk.injEq, Except.ok.injEq] at H
    rcases hres with h | ⟨p, h⟩ <;> rw [h] at H <;> simp at H
  rw [if_neg hA] at H
  by_cases hB : (¬ ((if slot = Value.pynone then cur else slot).pyEq cur) = true)
  · rw [if_pos hB] at H
    try dsimp only at H
    rcases h4 : send "dump" true [("slot", if slot = Value.pynone then cur else slot)]
        env rs1 with ⟨rs2, r2⟩
    rw [h4] at H
    cases r2 with
    | error e => simp at H
    | ok rr =>
    try dsimp only at H
    split at H
    · simp at H
    rcases h5 : rr.dget "addr" with _ | v
    all_goals rw [h5] at H
    · simp at H
    simp only [Prod.mk.injEq, Except.ok.injEq] at H
    rcases hres with h | ⟨p, h⟩ <;> rw [h] at H <;> simp at H
  rw [if_neg hB] at H
  try dsimp only at H
  rcases h4 : send "read" true [("nonce", env.nonces rs1.nidx)] env
      { rs1 with nidx := rs1.nidx + 1 } with ⟨rs2, r2⟩
  rw [h4] at H
  cases r2 with
  | error e => simp at H
  | ok rr =>
  try dsimp only at H
  rcases h5 : env.recover_address st rr (env.nonces rs1.nidx) with e | pa
  all_goals rw [h5] at H
  · simp at H
  try dsimp only at H
  rw [if_pos (by simp)] at H
  try dsimp only at H
  rcases h6 : rs2.card.card_nonce with _ | cn
  all_goals rw [h6] at H
  · simp at H
  try dsimp only at H
  rcases h7 : send "derive" true [("nonce", env.nonces rs2.nidx)] env
      { rs2 with nidx := rs2.nidx + 1 } with ⟨rs3, r3⟩
  rw [h7] at H
  cases r3 with
  | error e => simp at H
  | ok rr2 =>
  try dsimp only at H
  rcases h8 : rr2.dget "master_pubkey" with _ | mp
  all_goals rw [h8] at H
  · simp at H
  try dsimp only at H
  rcases h9 : rr2.dget "sig" with _ | sig
  all_goals rw [h9] at H
  · simp at H
  try dsimp only at H
  rcases h10 : rr2.dget "chain_code" with _ | cc
  all_goals rw [h10] at H
  · simp at H
  try dsimp only at H
  rcases h11 : env.verify_master_pubkey mp sig cc (env.nonces rs2.nidx) cn with e | mpub
  all_goals rw [h11] at H
  · simp at H
  try dsimp only at H
  rcases h12 : rs3.card.is_testnet with _ | tn
  all_goals rw [h12] at H
  · simp at H
  try dsimp only at H
  rcases h13 : env.verify_derive_address cc mpub tn with e | da
  all_goals rw [h13] at H
  · simp at H
  try dsimp only at H
  by_cases hda : da.1 = pa.2
  · rw [if_neg (by simp [hda])] at H
    try dsimp only at H
    have hsent : rs3.sent = rs2.sent ++ [("derive", [("nonce", env.nonces rs2.nidx)])] :=
      send_sent_of "derive" true [("nonce", env.nonces rs2.nidx)] env
        { rs2 with nidx := rs2.nidx + 1 } rs3 _ h7
    have hres2 : pa.2 = a ∧ rs' = rs3 := by
      split at H <;> simp only [Prod.mk.injEq, Except.ok.injEq] at H <;>
        rcases hres with h | ⟨p, h⟩ <;> rw [h] at H <;>
        exact ⟨by simp_all, H.1.symm⟩
    constructor
    · refine ⟨[("nonce", env.nonces rs2.nidx)], ?_⟩
      rw [hres2.2, hsent]
      simp
    · refine ⟨rr2, mp, sig, cc, mpub, tn, da.2, env.nonces rs2.nidx, cn,
        h8, h9, h10, h11, ?_⟩
      rw [← hres2.1, ← hda]
      exact h13
  · rw [if_pos (by simp [hda])] at H
    simp at H

namespace Value

mutual

theorem pyEq_refl : (v : Value) → pyEq v v = true
  | .pynone => rfl
  | .bool _ => by simp [pyEq]
  | .int _ => by simp [pyEq]
  | .str _ => by simp [pyEq]
  | .bytes _ => by simp [pyEq]
  | .list l => pyEqList_refl l

theorem pyEqList_refl : (l : List Value) → pyEq.pyEqList l l = true
  | [] => rfl
  | x :: xs => by
      simp only [pyEq.pyEqList, Bool.and_eq_true]
      exact ⟨pyEq_refl x, pyEqList_refl xs⟩

end

end Value

/-- C5: every `address` call without faster mode that returns an address
from the nonce-bound `read` recovery has performed the second independent
derivation — a `derive` command appears in the trace, and the external
re-derivation (master public key verified against the signature over the
caller's nonce and the card's prior nonce, then address derivation from the
chain code) produced exactly the returned address; and an injected
mismatch between the two derivations raises the fatal verification
`ValueError`, returning no address. -/
theorem address_full_verification (env : Env) (rs : RS) (incl_pubkey : Bool)
    (slot : Value) :
    (∀ (rs' : RS) (res : AddrResult) (a : String),
      address false incl_pubkey slot env rs = (rs', .ok res) →
      (res = .addr a ∨ ∃ p, res = .pubkeyAddr p a) →
      (∃ args, ("derive", args) ∈ rs'.sent) ∧
      (∃ (rr2 : Dict) (mp sig cc mpub tn x my_nonce cn : Value),
        rr2.dget "master_pubkey" = some mp ∧
        rr2.dget "sig" = some sig ∧
        rr2.dget "chain_code" = some cc ∧
        env.verify_master_pubkey mp sig cc my_nonce cn = .ok mpub ∧
        env.verify_derive_address cc mpub tn = .ok (a, x))) ∧
    (∀ (tv cn2 : Value) (st rr rr2 : Dict) (slots cur mp sig cc mpub tn : Value)
       (pa : Value × String) (da : String × Value),
      rs.card.is_tapsigner = some tv → tv.truthy = false →
      rs.card.certs_checked = some true →
      env.tr "status" [] = (SW_OKAY, st) → st.dmem "error" = false →
      st.dget "slots" = some slots → pyIndex0 slots = .ok cur →
      st.dmem "addr" = true →
      slot = .pynone →
      env.tr "read" [("nonce", env.nonces rs.nidx)] = (SW_OKAY, rr) →
      rr.dmem "error" = false →
      env.recover_address st rr (env.nonces rs.nidx) = .ok pa →
      (send_track_nonce rr (send_track_nonce st rs.card)).card_nonce = some cn2 →
      env.tr "derive" [("nonce", env.nonces (rs.nidx + 1))] = (SW_OKAY, rr2) →
      rr2.dmem "error" = false →
      rr2.dget "master_pubkey" = some mp → rr2.dget "sig" = some sig →
      rr2.dget "chain_code" = some cc →
      env.verify_master_pubkey mp sig cc (env.nonces (rs.nidx + 1)) cn2 = .ok mpub →
      rs.card.is_testnet = some tn →
      env.verify_derive_address cc mpub tn = .ok da →
      da.1 ≠ pa.2 →
      (address false incl_pubkey slot env rs).2 =
        .error (.valueError "card did not derive address as expected")) := by
  constructor
  · intro rs' res a H hres
    unfold address M.bind M.attr M.raise M.pure at H
    rcases h1 : rs.card.is_tapsigner with _ | tap
    all_goals rw [h1] at H
    · simp at H
    try dsimp only at H
    by_cases htap : tap.truthy = true
    · rw [if_pos htap] at H
      simp at H
    rw [if_neg htap] at H
    try dsimp only at H
    rcases h2 : rs.card.certs_checked with _ | cc
    all_goals rw [h2] at H
    · simp at H
    try dsimp only at H
    by_cases hcc : cc = true
    · rw [hcc] at H
      rw [if_neg (by simp)] at H
      try dsimp only at H
      exact address_body_verify env rs rs' incl_pubkey slot res a H hres
    · have hcf : cc = false := by rcases cc <;> simp_all
      rw [hcf] at H
      rw [if_pos (by simp)] at H
      rcases h3 : certificate_check env rs with ⟨rsC, rC⟩
      rw [h3] at H
      cases rC with
      | error e => simp at H
      | ok rv =>
          try dsimp only at H
          exact address_body_verify env rsC rs' incl_pubkey slot res a H hres
  · intro tv cn2 st rr rr2 slots cur mp sig cc mpub tn pa da
      htap htapf hcc htr1 herr1 hslots hcur haddr hslot htr2 herr2 hrec hn2
      htr3 herr3 hmp hsig hcc2 hvm htn hvd hne
    unfold address address_body M.bind M.attr M.subscript M.lift M.raise M.pure
      M.pick_nonce
    rw [htap]
    dsimp only
    simp only [htapf, Bool.false_eq_true, if_false]
    rw [hcc]
    dsimp only
    rw [if_neg (by simp)]
    dsimp only
    rw [send_ok_of env _ "status" [] st htr1 herr1]
    dsimp only
    rw [hslots]
    dsimp only
    rw [hcur]
    dsimp only
    rw [hslot]
    rw [if_neg (by simp [haddr])]
    rw [if_neg (by simp [Value.pyEq_refl])]
    dsimp only
    rw [send_ok_of env _ "read" [("nonce", env.nonces rs.nidx)] rr htr2 herr2]
    dsimp only
    rw [hrec]
    dsimp only
    rw [if_pos (by simp)]
    dsimp only
    rw [hn2]
    dsimp only
    rw [send_ok_of env _ "derive" [("nonce", env.nonces (rs.nidx + 1))] rr2 htr3 herr3]
    dsimp only
    rw [hmp]
    dsimp only
    rw [hsig]
    dsimp only
    rw [hcc2]
    dsimp only
    rw [hvm]
    dsimp only
    rw [show (send_track_nonce rr2 (send_track_nonce rr
        (send_track_nonce st rs.card))).is_testnet = rs.card.is_testnet from
      ((send_track_nonce_id _ _).2.2.2.1).trans
        (((send_track_nonce_id _ _).2.2.2.1).trans ((send_track_nonce_id _ _).2.2.2.1))]
    rw [htn]
    dsimp only
    rw [hvd]
    dsimp only
    rw [if_pos hne]

def envC5 : Env :=
  { envBase with
    tr := fun cmd _ =>
      if cmd = "status" then
        (SW_OKAY, [("slots", .list [.int 0, .int 3]), ("addr", .str "bc1qq"),
                   ("card_nonce", .bytes [8])])
      else if cmd = "read" then (SW_OKAY, [("card_nonce", .bytes [9])])
      else if cmd = "derive" then
        (SW_OKAY, [("master_pubkey", .bytes [11]), ("sig", .bytes [12]),
                   ("chain_code", .bytes [13]), ("card_nonce", .bytes [10])])
      else (SW_OKAY, []) }

def rsC5 : RS :=
  { card := { is_tapsigner := some (.bool false), certs_checked := some true,
              card_nonce := some (.bytes [7]), is_testnet := some (.bool false) } }

theorem address_full_verification_witness :
    ∃ args, ("derive", args) ∈ (address false false .pynone envC5 rsC5).1.sent :=
  ((address_full_verification envC5 rsC5 false .pynone).1
    (address false false .pynone envC5 rsC5).1 (.addr "addr1") "addr1"
    rfl (Or.inl rfl)).1
